import Mathlib

/-!
Verification of `app.py` ("IT Super Bot": a password-gated Streamlit chat app
with a Pinecone-backed knowledge base).

Strings are modelled as `List Char` (Python `str` by code points); bytes as
`List Nat`.  Calls to the hosted services (OpenAI embeddings, OpenAI chat
completions, Pinecone upsert/query, the PyPDF2 text extractor) are modelled by
an environment `Env` of oracles returning `Except`, and each handler returns
the trace of calls it attempted together with the exception it lets escape,
if any.
-/

/-- The whitespace predicate of Python's `str.strip()`, restricted to the
ASCII whitespace characters (space, tab, newline, carriage return, vertical
tab, form feed).  All strings in this development are ASCII. -/
def isPySpace (c : Char) : Bool :=
  c = ' ' || c = '\t' || c = '\n' || c = '\r' || c = '\x0b' || c = '\x0c'

/-- Python `str.strip()`: remove leading and trailing whitespace. -/
def pyStrip (s : List Char) : List Char :=
  ((s.dropWhile isPySpace).reverse.dropWhile isPySpace).reverse

/-- Python `str.lower()` (ASCII range, which is all the code uses). -/
def pyLower (s : List Char) : List Char :=
  s.map Char.toLower

/-- Literal `"user"` (chat role). -/
def roleUser : List Char := "user".data

/-- Literal `"assistant"` (chat role). -/
def roleAssistant : List Char := "assistant".data

/-- Literal `"system"` (chat role). -/
def roleSystem : List Char := "system".data

/-- Literal `"please add"`, the command checked by `handle_user_input`. -/
def pleaseAdd : List Char := "please add".data

/-- Literal `"manual_add"`, the `doc_id` used by `add_text_to_pinecone`. -/
def manualAdd : List Char := "manual_add".data

/-- Literal `"Added to knowledge base: "`, start of the confirmation turn. -/
def addedMsg : List Char := "Added to knowledge base: ".data

/-- Literal `"OpenAI error: "`, start of the inline error turn. -/
def openaiErr : List Char := "OpenAI error: ".data

/-- First part of the system prompt built in `handle_user_input`. -/
def sysPromptA : List Char := "You are a helpful IT assistant.\nRelevant knowledge:\n".data

/-- Second part of the system prompt built in `handle_user_input`. -/
def sysPromptB : List Char := "\n\nUse it if relevant when answering.".data

/-- Literal `"\n"`, the separator joined between retrieved snippets. -/
def newlineStr : List Char := "\n".data

/-- Literal `"pdf"`. -/
def pdfLit : List Char := "pdf".data

/-- Literal `"txt"`. -/
def txtLit : List Char := "txt".data

/-- The loop body of `chunk_text` (app.py lines 87-96), driven by explicit
fuel so that it is structurally recursive and kernel-computable.  Each
iteration takes `chunk_size` characters, strips them, and continues on the
rest; with `1 ≤ chunk_size` every iteration consumes at least one character,
so fuel `= length of the text` is exact (see `chunk_text_go_fuel`). -/
def chunk_text_go (chunk_size : Nat) : Nat → List Char → List (List Char)
  | _, [] => []
  | 0, _ => []
  | fuel + 1, s => pyStrip (s.take chunk_size) :: chunk_text_go chunk_size fuel (s.drop chunk_size)

/-- `chunk_text` (app.py lines 87-96): split `full_text` into consecutive
`chunk_size`-wide windows and strip each window.  The Python default argument
`chunk_size=1500` is rendered by passing `1500` explicitly at the call sites
that use the default.  (For `chunk_size = 0` the Python loop diverges; no
caller uses a non-positive size.) -/
def chunk_text (full_text : List Char) (chunk_size : Nat) : List (List Char) :=
  chunk_text_go chunk_size full_text.length full_text

/-- A UTF-8 continuation byte (`0x80`-`0xBF`). -/
def isCont (b : Nat) : Bool := 0x80 ≤ b && b ≤ 0xBF

/-- Allowed range of the first continuation byte of a 3-byte sequence headed
by `b`, per RFC 3629 (excludes overlong forms and surrogates). -/
def isCont3 (b b1 : Nat) : Bool :=
  if b = 0xE0 then 0xA0 ≤ b1 && b1 ≤ 0xBF
  else if b = 0xED then 0x80 ≤ b1 && b1 ≤ 0x9F
  else isCont b1

/-- Allowed range of the first continuation byte of a 4-byte sequence headed
by `b`, per RFC 3629 (excludes overlong forms and values above U+10FFFF). -/
def isCont4 (b b1 : Nat) : Bool :=
  if b = 0xF0 then 0x90 ≤ b1 && b1 ≤ 0xBF
  else if b = 0xF4 then 0x80 ≤ b1 && b1 ≤ 0x8F
  else isCont b1

/-- Fuel-driven body of `utf8DecodeIgnore`.  Decodes well-formed UTF-8
sequences and silently skips ill-formed subsequences (a lead byte together
with the continuation bytes that matched so far), modelling CPython's
`bytes.decode("utf-8", errors="ignore")`.  Every step consumes at least one
byte, so fuel `= length of the input` suffices. -/
def utf8DecodeIgnoreGo : Nat → List Nat → List Char
  | _, [] => []
  | 0, _ => []
  | fuel + 1, b :: rest =>
    if b ≤ 0x7F then
      Char.ofNat b :: utf8DecodeIgnoreGo fuel rest
    else if 0xC2 ≤ b && b ≤ 0xDF then
      match rest with
      | [] => []
      | b1 :: rest1 =>
        if isCont b1 then
          Char.ofNat ((b - 0xC0) * 0x40 + (b1 - 0x80)) :: utf8DecodeIgnoreGo fuel rest1
        else
          utf8DecodeIgnoreGo fuel rest
    else if 0xE0 ≤ b && b ≤ 0xEF then
      match rest with
      | [] => []
      | b1 :: rest1 =>
        if isCont3 b b1 then
          match rest1 with
          | [] => []
          | b2 :: rest2 =>
            if isCont b2 then
              Char.ofNat ((b - 0xE0) * 0x1000 + (b1 - 0x80) * 0x40 + (b2 - 0x80)) ::
                utf8DecodeIgnoreGo fuel rest2
            else
              utf8DecodeIgnoreGo fuel rest1
        else
          utf8DecodeIgnoreGo fuel rest
    else if 0xF0 ≤ b && b ≤ 0xF4 then
      match rest with
      | [] => []
      | b1 :: rest1 =>
        if isCont4 b b1 then
          match rest1 with
          | [] => []
          | b2 :: rest2 =>
            if isCont b2 then
              match rest2 with
              | [] => []
              | b3 :: rest3 =>
                if isCont b3 then
                  Char.ofNat ((b - 0xF0) * 0x40000 + (b1 - 0x80) * 0x1000 +
                      (b2 - 0x80) * 0x40 + (b3 - 0x80)) ::
                    utf8DecodeIgnoreGo fuel rest3
                else
                  utf8DecodeIgnoreGo fuel rest2
            else
              utf8DecodeIgnoreGo fuel rest1
        else
          utf8DecodeIgnoreGo fuel rest
    else
      utf8DecodeIgnoreGo fuel rest

/-- Model of Python `raw_bytes.decode("utf-8", errors="ignore")` (app.py
line 115): a total function on arbitrary byte strings — ill-formed input is
dropped, never raised on. -/
def utf8DecodeIgnore (bytes : List Nat) : List Char :=
  utf8DecodeIgnoreGo bytes.length bytes

/-- One chat turn, an element of `st.session_state.chat_history` (a Python
dict with string fields `role` and `content`). -/
structure Turn where
  role : List Char
  content : List Char
  deriving DecidableEq

/-- One record upserted to Pinecone by `embed_and_upsert` (app.py lines
69-78): id, embedding values, and the two metadata fields. -/
structure PCRecord where
  vector_id : List Char
  values : List Int
  original_text : List Char
  doc_id : List Char
  deriving DecidableEq

/-- One match returned by `index.query`; `query_pinecone` only reads
`match.metadata.get("original_text", "")`, so only that (possibly absent)
metadata field is modelled. -/
structure PCMatch where
  original_text : Option (List Char)
  deriving DecidableEq

/-- A call to one of the hosted APIs, as recorded in a trace. -/
inductive ApiCall where
  | embedCall : List Char → ApiCall
  | upsertCall : PCRecord → ApiCall
  | queryCall : List Int → Nat → ApiCall
  | chatCall : List Turn → ApiCall
  deriving DecidableEq

/-- The environment of hosted services: each oracle gives the outcome of one
external call (`Except.error` = the Python call raised, carrying `str(e)`).
`uuid` gives the value of the n-th `uuid.uuid4()` drawn in one handler run.
`pdfExtract` models `PyPDF2.PdfReader` plus `extract_text` over all pages. -/
structure Env where
  embedResult : List Char → Except (List Char) (List Int)
  upsertResult : PCRecord → Except (List Char) Unit
  queryResult : List Int → Nat → Except (List Char) (List PCMatch)
  chatResult : List Turn → Except (List Char) (List Char)
  pdfExtract : List Nat → Except (List Char) (List (List Char))
  uuid : Nat → List Char

/-- Result of one run of `handle_user_input`: the session state it leaves
behind (`chat_history` and the `chat_input` text box), the trace of hosted
API calls it attempted, and `raised = some e` when an exception escaped the
handler uncaught (Python state mutated before the raise persists). -/
structure HResult where
  chat_history : List Turn
  chat_input : List Char
  calls : List ApiCall
  raised : Option (List Char)
  deriving DecidableEq

/-- The loop of `embed_and_upsert` (app.py lines 60-78), carrying the index
`n` of the next `uuid.uuid4()` draw.  For each chunk: embed it (may raise),
then upsert one record with metadata `original_text = chunk` and
`doc_id =` the second argument (called `metadata_prefix` in app.py).
Returns the trace of attempted calls and the uncaught exception, if any. -/
def embed_and_upsert_go (env : Env) (doc_tag : List Char) :
    List (List Char) → Nat → List ApiCall × Option (List Char)
  | [], _ => ([], none)
  | chunk :: rest, n =>
    match env.embedResult chunk with
    | Except.error e => ([ApiCall.embedCall chunk], some e)
    | Except.ok emb =>
      match env.upsertResult ⟨env.uuid n, emb, chunk, doc_tag⟩ with
      | Except.error e =>
        ([ApiCall.embedCall chunk, ApiCall.upsertCall ⟨env.uuid n, emb, chunk, doc_tag⟩], some e)
      | Except.ok _ =>
        let r := embed_and_upsert_go env doc_tag rest (n + 1)
        (ApiCall.embedCall chunk :: ApiCall.upsertCall ⟨env.uuid n, emb, chunk, doc_tag⟩ :: r.1,
         r.2)

/-- `embed_and_upsert` (app.py lines 55-78). -/
def embed_and_upsert (env : Env) (chunks : List (List Char)) (doc_tag : List Char) :
    List ApiCall × Option (List Char) :=
  embed_and_upsert_go env doc_tag chunks 0

/-- `add_text_to_pinecone` (app.py lines 80-82): embed and upsert the single
snippet with `doc_id = "manual_add"`. -/
def add_text_to_pinecone (env : Env) (text : List Char) : List ApiCall × Option (List Char) :=
  embed_and_upsert env [text] manualAdd

/-- `query_pinecone` (app.py lines 124-142): embed the query, fetch the
`top_k` nearest vectors, and collect each match's `original_text` metadata
(defaulting to `""` when absent).  Neither call is wrapped in a
`try`/`except`, so either error escapes. -/
def query_pinecone (env : Env) (query : List Char) (top_k : Nat) :
    List ApiCall × Except (List Char) (List (List Char)) :=
  match env.embedResult query with
  | Except.error e => ([ApiCall.embedCall query], Except.error e)
  | Except.ok emb =>
    match env.queryResult emb top_k with
    | Except.error e =>
      ([ApiCall.embedCall query, ApiCall.queryCall emb top_k], Except.error e)
    | Except.ok ms =>
      ([ApiCall.embedCall query, ApiCall.queryCall emb top_k],
       Except.ok (ms.map (fun m => m.original_text.getD [])))

/-- The retrieved snippet texts of a list of Pinecone matches
(app.py lines 138-142). -/
def retrievedOf (ms : List PCMatch) : List (List Char) :=
  ms.map (fun m => m.original_text.getD [])

/-- The system prompt `handle_user_input` builds from the retrieved matches
(app.py lines 161-166): the fixed preamble, the snippets joined by `"\n"`,
and the fixed closing line. -/
def systemPromptOf (ms : List PCMatch) : List Char :=
  sysPromptA ++ List.intercalate newlineStr (retrievedOf ms) ++ sysPromptB

/-- The conversation `handle_user_input` sends to the chat model (app.py
lines 167-168): the system prompt, then the whole chat history — which at
that point already ends with the new user turn. -/
def conversationOf (hist : List Turn) (user_text : List Char) (ms : List PCMatch) : List Turn :=
  Turn.mk roleSystem (systemPromptOf ms) :: (hist ++ [Turn.mk roleUser user_text])

/-- `handle_user_input` (app.py lines 144-188), as a function of the
environment, the submitted `chat_input` text and the current chat history.
Strips the input; returns unchanged on empty; appends the user turn; then
either the "please add" flow (embed + upsert the snippet after the first 10
characters, confirm) or the query flow (retrieve top-3, build the system
prompt, call the chat model — only this last call is inside `try`/`except`).
`chat_input` is cleared only when the handler reaches its last line. -/
def handle_user_input (env : Env) (chat_input : List Char) (hist : List Turn) : HResult :=
  let user_text := pyStrip chat_input
  if user_text.isEmpty then ⟨hist, chat_input, [], none⟩
  else
    let hist1 := hist ++ [Turn.mk roleUser user_text]
    if pleaseAdd.isPrefixOf (pyLower user_text) then
      let new_data := pyStrip (user_text.drop 10)
      match add_text_to_pinecone env new_data with
      | (calls, some e) => ⟨hist1, chat_input, calls, some e⟩
      | (calls, none) =>
        ⟨hist1 ++ [Turn.mk roleAssistant (addedMsg ++ new_data)], [], calls, none⟩
    else
      match query_pinecone env user_text 3 with
      | (calls, Except.error e) => ⟨hist1, chat_input, calls, some e⟩
      | (calls, Except.ok retrieved) =>
        let context := List.intercalate newlineStr retrieved
        let system_prompt := sysPromptA ++ context ++ sysPromptB
        let conversation := Turn.mk roleSystem system_prompt :: hist1
        match env.chatResult conversation with
        | Except.error e =>
          ⟨hist1 ++ [Turn.mk roleAssistant (openaiErr ++ e)], [],
           calls ++ [ApiCall.chatCall conversation], none⟩
        | Except.ok answer =>
          ⟨hist1 ++ [Turn.mk roleAssistant (pyStrip answer)], [],
           calls ++ [ApiCall.chatCall conversation], none⟩

/-- An uploaded file: its name and its raw bytes. -/
structure UploadedFile where
  name : List Char
  content : List Nat
  deriving DecidableEq

/-- The extension test of `parse_file` (app.py line 103):
`uploaded_file.name.lower().split('.')[-1]`. -/
def fileExt (name : List Char) : List Char :=
  (List.splitOn '.' (pyLower name)).getLastD []

/-- `parse_file` (app.py lines 98-119).  For a `"pdf"` extension the PyPDF2
extraction (which may raise) yields the page texts, joined with `"\n"` after
each page; for `"txt"` the bytes are decoded with `errors="ignore"` (total,
never raises); anything else returns `[]`.  Both text branches chunk with
the default `chunk_size = 1500`. -/
def parse_file (env : Env) (f : UploadedFile) : Except (List Char) (List (List Char)) :=
  let ext := fileExt f.name
  if ext = pdfLit then
    match env.pdfExtract f.content with
    | Except.error e => Except.error e
    | Except.ok pages =>
      Except.ok (chunk_text (pages.foldl (fun acc p => acc ++ p ++ newlineStr) []) 1500)
  else if ext = txtLit then
    Except.ok (chunk_text (utf8DecodeIgnore f.content) 1500)
  else
    Except.ok []

/-- Outcome of the "Process file" flow in `main_app`. -/
inductive FileOutcome where
  | raised : List Char → FileOutcome
  | unsupported : FileOutcome
  | success : FileOutcome
  deriving DecidableEq

/-- The "Process file" button flow of `main_app` (app.py lines 225-233):
parse (a PDF error escapes), show the unsupported-type error on an empty
chunk list, otherwise embed and upsert every chunk with
`doc_name or uploaded_file.name` as the metadata tag. -/
def process_file (env : Env) (f : UploadedFile) (doc_name : List Char) :
    List ApiCall × FileOutcome :=
  match parse_file env f with
  | Except.error e => ([], FileOutcome.raised e)
  | Except.ok chunks =>
    if chunks.isEmpty then ([], FileOutcome.unsupported)
    else
      match embed_and_upsert env chunks (if doc_name.isEmpty then f.name else doc_name) with
      | (calls, some e) => (calls, FileOutcome.raised e)
      | (calls, none) => (calls, FileOutcome.success)

/-- `st.session_state` before `init_session` ran: each key is independently
present or absent. -/
structure RawSession where
  authenticated : Option Bool
  chat_history : Option (List Turn)
  input_password : Option (List Char)
  deriving DecidableEq

/-- `st.session_state` after `init_session`: all three keys present. -/
structure Session where
  authenticated : Bool
  chat_history : List Turn
  input_password : List Char
  deriving DecidableEq

/-- `init_session` (app.py lines 19-25): fill in each missing key with its
default (`False`, `[]`, `""`). -/
def init_session (s : RawSession) : Session :=
  ⟨s.authenticated.getD false, s.chat_history.getD [], s.input_password.getD []⟩

/-- What `password_gate` rendered on this run. -/
inductive GateOutcome where
  | authSet : GateOutcome
  | errorShown : GateOutcome
  | noSubmit : GateOutcome
  deriving DecidableEq

/-- `password_gate` (app.py lines 27-37), as a function of the configured
secret (`st.secrets["app_password"]`), whether the Submit button was pressed
on this rerun, and the session.  On submit it strips the entered password and
sets `authenticated` exactly when it equals the secret, otherwise shows the
error and leaves the session unchanged. -/
def password_gate (app_password : List Char) (submitted : Bool) (s : Session) :
    Session × GateOutcome :=
  if submitted then
    if pyStrip s.input_password = app_password then
      ({ s with authenticated := true }, GateOutcome.authSet)
    else
      (s, GateOutcome.errorShown)
  else
    (s, GateOutcome.noSubmit)

/-- The page a rerun of `run_app` ends on. -/
inductive Page where
  | gate : Page
  | main : Page
  deriving DecidableEq

/-- `run_app` (app.py lines 238-245): initialise the session, then show the
password gate unless `authenticated` is already set, in which case `main_app`
runs. -/
def run_app (app_password : List Char) (submitted : Bool) (raw : RawSession) :
    Session × Page :=
  let s0 := init_session raw
  if s0.authenticated then
    (s0, Page.main)
  else
    ((password_gate app_password submitted s0).1, Page.gate)

/-- A verified OAuth identity as the gate sees it: whether the ID token
verified, and its organizational domain claim. -/
structure Identity where
  token_valid : Bool
  domain : List Char
  deriving DecidableEq

/-- Modelled from the spec: the Google-OAuth domain-restricted gate lives in
other iterations of this repository, not in `app.py` (which is the
password-gated variant), so it is modelled from the spec's words:
"rejecting authentication unless the verified identity's organizational
domain claim matches one allowed value" — authentication succeeds only for a
verified token whose domain claim equals the single allowed domain. -/
def domain_gate (allowed_domain : List Char) (ident : Identity) : Bool :=
  ident.token_valid && decide (ident.domain = allowed_domain)

/-- The character placed at position `i` of the concrete 3,200-character
test string `s3200`: a printable, non-whitespace character (codes 33-96)
with period 64, so that windows 64 characters apart differ. -/
def charAt (i : Nat) : Char := Char.ofNat (33 + i % 64)

/-- A concrete 3,200-character string with no whitespace and period 64. -/
def s3200 : List Char := (List.range 3200).map charAt

/-- A concrete 3,200-character string of repeated letters. -/
def aRep : List Char := List.replicate 3200 'a'

/-- Literal `"ab cd efg"`, a 9-character splitter test input. -/
def lit9 : List Char := "ab cd efg".data

/-- Literal `"Please add vpn is off"`, a "please add" chat message. -/
def msgAdd : List Char := "Please add vpn is off".data

/-- Literal `"hello"`, a plain chat message. -/
def helloLit : List Char := "hello".data

/-- Literal `"boom"`, an error text thrown by a failing oracle. -/
def boomLit : List Char := "boom".data

/-- Literal `"vpn info"`, a stored snippet returned by the query oracle. -/
def kbSnippet : List Char := "vpn info".data

/-- Literal `" ok "`, a chat-model answer (with whitespace to strip). -/
def chatAnswer : List Char := " ok ".data

/-- Literal `"id-0"`, the uuid value drawn by the concrete environments. -/
def idLit : List Char := "id-0".data

/-- A concrete environment in which every hosted call succeeds. -/
def envOk : Env :=
  ⟨fun _ => Except.ok [1], fun _ => Except.ok (),
   fun _ _ => Except.ok [⟨some kbSnippet⟩], fun _ => Except.ok chatAnswer,
   fun _ => Except.ok [], fun _ => idLit⟩

/-- A concrete environment in which the embedding call raises `"boom"` and
every other call succeeds. -/
def envEmbedFail : Env :=
  ⟨fun _ => Except.error boomLit, fun _ => Except.ok (),
   fun _ _ => Except.ok [], fun _ => Except.ok [],
   fun _ => Except.ok [], fun _ => idLit⟩

/-- A concrete environment in which the chat-completion call raises `"boom"`
and every other call succeeds. -/
def envChatFail : Env :=
  ⟨fun _ => Except.ok [1], fun _ => Except.ok (),
   fun _ _ => Except.ok [⟨some kbSnippet⟩], fun _ => Except.error boomLit,
   fun _ => Except.ok [], fun _ => idLit⟩

/-- A concrete environment in which the Pinecone query call raises `"boom"`
and every other call succeeds. -/
def envQueryFail : Env :=
  ⟨fun _ => Except.ok [1], fun _ => Except.ok (),
   fun _ _ => Except.error boomLit, fun _ => Except.ok chatAnswer,
   fun _ => Except.ok [], fun _ => idLit⟩

/-- A concrete environment in which the Pinecone upsert call raises `"boom"`
and every other call succeeds. -/
def envUpsertFail : Env :=
  ⟨fun _ => Except.ok [1], fun _ => Except.error boomLit,
   fun _ _ => Except.ok [], fun _ => Except.ok chatAnswer,
   fun _ => Except.ok [], fun _ => idLit⟩

/-- Literal `"   "`, a whitespace-only chat message. -/
def wsLit : List Char := "   ".data

/-- Literal `"s3cret"`, a configured app password. -/
def pwLit : List Char := "s3cret".data

/-- Literal `" s3cret "`, a submitted password that strips to the secret. -/
def pwEntry : List Char := " s3cret ".data

/-- Literal `"wrong"`, a submitted password that does not match. -/
def wrongLit : List Char := "wrong".data

/-- A raw session holding the matching password entry. -/
def raw0 : RawSession := ⟨none, none, some pwEntry⟩

/-- A raw session holding a non-matching password entry. -/
def raw1 : RawSession := ⟨none, none, some wrongLit⟩

/-- Literal `"acme.com"`, a configured allowed domain. -/
def allowedLit : List Char := "acme.com".data

/-- Literal `"intruder.com"`, a domain claim outside the allowed one. -/
def evilLit : List Char := "intruder.com".data

/-- A concrete upload whose extension is neither pdf nor txt. -/
def filePptx : UploadedFile := ⟨"slides.pptx".data, [1, 2, 3]⟩

/-- A concrete txt upload whose bytes start with an invalid UTF-8 byte. -/
def fileTxt : UploadedFile := ⟨"notes.txt".data, [255, 104, 105]⟩

/-! Helper lemmas about the splitter. -/

theorem chunk_text_go_fuel (chunk_size : Nat) (hk : 0 < chunk_size) :
    ∀ fuel s, List.length s ≤ fuel →
      chunk_text_go chunk_size fuel s = chunk_text_go chunk_size s.length s := by
  intro fuel
  induction fuel using Nat.strongRecOn with
  | ind fuel ih =>
    intro s h
    match fuel, s with
    | 0, [] => rfl
    | f + 1, [] => rfl
    | 0, b :: t => simp at h
    | f + 1, b :: t =>
      have hd : ((b :: t).drop chunk_size).length ≤ t.length := by
        simp [List.length_drop]; omega
      have hf : t.length ≤ f := by simpa using h
      calc chunk_text_go chunk_size (f + 1) (b :: t)
          = pyStrip ((b :: t).take chunk_size) ::
              chunk_text_go chunk_size f ((b :: t).drop chunk_size) := rfl
        _ = pyStrip ((b :: t).take chunk_size) ::
              chunk_text_go chunk_size ((b :: t).drop chunk_size).length
                ((b :: t).drop chunk_size) := by
              rw [ih f (by omega) _ (le_trans hd hf)]
        _ = pyStrip ((b :: t).take chunk_size) ::
              chunk_text_go chunk_size t.length ((b :: t).drop chunk_size) := by
              rw [ih t.length (by omega) _ hd]
        _ = chunk_text_go chunk_size (t.length + 1) (b :: t) := rfl

theorem chunk_text_nil (chunk_size : Nat) : chunk_text [] chunk_size = [] := rfl

theorem chunk_text_cons (s : List Char) (chunk_size : Nat) (hs : s ≠ []) (hk : 0 < chunk_size) :
    chunk_text s chunk_size =
      pyStrip (s.take chunk_size) :: chunk_text (s.drop chunk_size) chunk_size := by
  match s with
  | [] => exact absurd rfl hs
  | b :: t =>
    show chunk_text_go chunk_size (t.length + 1) (b :: t) = _
    have hd : ((b :: t).drop chunk_size).length ≤ t.length := by
      simp [List.length_drop]; omega
    calc chunk_text_go chunk_size (t.length + 1) (b :: t)
        = pyStrip ((b :: t).take chunk_size) ::
            chunk_text_go chunk_size t.length ((b :: t).drop chunk_size) := rfl
      _ = pyStrip ((b :: t).take chunk_size) ::
            chunk_text_go chunk_size ((b :: t).drop chunk_size).length
              ((b :: t).drop chunk_size) := by
            rw [chunk_text_go_fuel chunk_size hk t.length _ hd]
      _ = _ := rfl

theorem chunk_text_length (chunk_size : Nat) (hk : 0 < chunk_size) :
    ∀ s : List Char,
      (chunk_text s chunk_size).length = (s.length + chunk_size - 1) / chunk_size := by
  intro s
  generalize hn : s.length = n
  induction n using Nat.strongRecOn generalizing s with
  | ind n ih =>
    by_cases hs : s = []
    · subst hs
      simp only [List.length_nil] at hn
      subst hn
      rw [chunk_text_nil]
      rw [Nat.div_eq_of_lt (by omega)]
      rfl
    · have hn1 : 1 ≤ n := by
        have := List.length_pos.mpr hs
        omega
      rw [chunk_text_cons s chunk_size hs hk, List.length_cons]
      have hdl : (s.drop chunk_size).length = n - chunk_size := by
        simp [List.length_drop, hn]
      rw [ih (n - chunk_size) (by omega) _ hdl]
      have h2 : n + chunk_size - 1 = (n - 1) + chunk_size := by omega
      rw [h2, Nat.add_div_right _ hk]
      by_cases hnk : chunk_size ≤ n
      · have h3 : n - chunk_size + chunk_size - 1 = n - 1 := by omega
        rw [h3]
      · have h4 : n - chunk_size + chunk_size - 1 = chunk_size - 1 := by omega
        rw [h4, Nat.div_eq_of_lt (by omega), Nat.div_eq_of_lt (by omega)]

theorem chunk_text_getq (chunk_size : Nat) (hk : 0 < chunk_size) :
    ∀ (s : List Char) (i : Nat), i < (chunk_text s chunk_size).length →
      (chunk_text s chunk_size).get? i =
        some (pyStrip ((s.drop (i * chunk_size)).take chunk_size)) := by
  intro s
  generalize hn : s.length = n
  induction n using Nat.strongRecOn generalizing s with
  | ind n ih =>
    intro i hi
    by_cases hs : s = []
    · subst hs
      rw [chunk_text_nil] at hi
      simp at hi
    · have hn1 : 1 ≤ n := by
        have := List.length_pos.mpr hs
        omega
      rw [chunk_text_cons s chunk_size hs hk] at hi ⊢
      cases i with
      | zero => simp
      | succ i =>
        rw [List.get?_cons_succ]
        have hdl : (s.drop chunk_size).length = n - chunk_size := by
          simp [List.length_drop, hn]
        have hi' : i < (chunk_text (s.drop chunk_size) chunk_size).length := by
          simp only [List.length_cons] at hi
          omega
        rw [ih (n - chunk_size) (by omega) _ hdl i hi']
        congr 2
        rw [List.drop_drop]
        congr 1
        ring

theorem dropWhile_eq_self_of (p : Char → Bool) (l : List Char)
    (h : ∀ c ∈ l, p c = false) : l.dropWhile p = l := by
  cases l with
  | nil => rfl
  | cons a t =>
    rw [List.dropWhile_cons]
    simp [h a (by simp)]

theorem pyStrip_eq_self (l : List Char) (h : ∀ c ∈ l, isPySpace c = false) :
    pyStrip l = l := by
  unfold pyStrip
  rw [dropWhile_eq_self_of _ _ h]
  rw [dropWhile_eq_self_of _ _ (by intro c hc; exact h c (List.mem_reverse.mp hc))]
  exact List.reverse_reverse l

theorem charAt_not_space (i : Nat) : isPySpace (charAt i) = false := by
  have hlt : i % 64 < 64 := Nat.mod_lt _ (by norm_num)
  unfold charAt
  set j := i % 64 with hj
  interval_cases j <;> decide

theorem s3200_no_space : ∀ c ∈ s3200, isPySpace c = false := by
  intro c hc
  simp only [s3200, List.mem_map] at hc
  obtain ⟨i, _, rfl⟩ := hc
  exact charAt_not_space i

theorem s3200_len : s3200.length = 3200 := by simp [s3200]

theorem isEmpty_false_of_ne_nil (l : List Char) (h : l ≠ []) : l.isEmpty = false := by
  cases l with
  | nil => exact absurd rfl h
  | cons a t => rfl

theorem pleaseAdd_nonempty_strip (msg : List Char)
    (hadd : pleaseAdd.isPrefixOf (pyLower (pyStrip msg)) = true) :
    (pyStrip msg).isEmpty = false := by
  cases hps : pyStrip msg with
  | nil =>
    rw [hps] at hadd
    simp [pyLower] at hadd
    exact absurd hadd (by decide)
  | cons a t => rfl

/-- C1 (amended): splitting a 3,200-character string with `chunk_text` at
window size 1,500 yields exactly 3 chunks, each the whitespace-stripped
content of one of the source windows `[0,1500)`, `[1500,3000)`, `[3000,3200)`
(`take 1500` of the 200-character tail is that tail).  The windows are
disjoint and adjacent, so successive chunks overlap by 0 source characters,
not 200 — `chunk_text` has no overlap parameter. -/
theorem C1_chunk3200_no_overlap (s : List Char) (h : s.length = 3200) :
    chunk_text s 1500 =
      [pyStrip (s.take 1500), pyStrip ((s.drop 1500).take 1500),
       pyStrip ((s.drop 3000).take 1500)] := by
  have h1 : s ≠ [] := by intro hc; rw [hc] at h; simp at h
  rw [chunk_text_cons s 1500 h1 (by norm_num)]
  have hd1 : (s.drop 1500).length = 1700 := by simp [List.length_drop, h]
  have h2 : s.drop 1500 ≠ [] := by intro hc; rw [hc] at hd1; simp at hd1
  rw [chunk_text_cons _ 1500 h2 (by norm_num)]
  rw [List.drop_drop]
  norm_num
  have hd2 : (s.drop 3000).length = 200 := by simp [List.length_drop, h]
  have h3 : s.drop 3000 ≠ [] := by intro hc; rw [hc] at hd2; simp at hd2
  rw [chunk_text_cons _ 1500 h3 (by norm_num)]
  rw [List.drop_drop]
  have hd3 : s.drop (1500 + 3000) = [] := by
    apply List.drop_eq_nil_of_le
    rw [h]; norm_num
  rw [hd3, chunk_text_nil]

/-- C1 witness: the amended theorem applied to the concrete 3,200-character
string `aRep`. -/
theorem C1_chunk3200_witness :
    chunk_text aRep 1500 =
      [pyStrip (aRep.take 1500), pyStrip ((aRep.drop 1500).take 1500),
       pyStrip ((aRep.drop 3000).take 1500)] :=
  C1_chunk3200_no_overlap aRep (by unfold aRep; rw [List.length_replicate])

/-- C1 counterexample: on the concrete whitespace-free 3,200-character string
`s3200` (period 64, so windows 200 apart differ), `chunk_text` does yield 3
chunks, but the second chunk is the stripped window starting at source
position 1,500 and is **not** the stripped window starting at position
1,300 = 1,500 − 200 — which it would have to be if successive chunks
overlapped by exactly 200 source characters. -/
theorem C1_overlap_counterexample :
    (chunk_text s3200 1500).length = 3 ∧
    (chunk_text s3200 1500).get? 1 ≠ some (pyStrip ((s3200.drop 1300).take 1500)) := by
  have hL : (chunk_text s3200 1500).length = 3 := by
    rw [chunk_text_length 1500 (by norm_num) s3200, s3200_len]
  refine ⟨hL, ?_⟩
  have hget := chunk_text_getq 1500 (by norm_num) s3200 1 (by rw [hL]; norm_num)
  rw [hget]
  intro hEq
  have hns1 : ∀ c ∈ (s3200.drop (1 * 1500)).take 1500, isPySpace c = false := by
    intro c hc
    exact s3200_no_space c (List.drop_subset _ _ (List.take_subset _ _ hc))
  have hns2 : ∀ c ∈ (s3200.drop 1300).take 1500, isPySpace c = false := by
    intro c hc
    exact s3200_no_space c (List.drop_subset _ _ (List.take_subset _ _ hc))
  rw [pyStrip_eq_self _ hns1, pyStrip_eq_self _ hns2] at hEq
  have hEq' : (s3200.drop (1 * 1500)).take 1500 = (s3200.drop 1300).take 1500 :=
    Option.some.inj hEq
  have h0 := congrArg (fun l => l.get? 0) hEq'
  simp only [List.get?_take (show 0 < 1500 by norm_num), List.get?_drop] at h0
  simp only [s3200, List.get?_map, List.get?_range (show 1 * 1500 + 0 < 3200 by norm_num),
    List.get?_range (show 1300 + 0 < 3200 by norm_num)] at h0
  exact absurd h0 (by decide)

/-- C2: for every input string and every positive window size (the Python
default is 1,500, passed explicitly at the call sites that use it),
`chunk_text` returns `⌈length / chunk_size⌉` chunks — 0 for the empty
string — and the `i`-th chunk is the whitespace-stripped fixed-width slice
`s[i*chunk_size : (i+1)*chunk_size]`. -/
theorem C2_chunk_text_fixed_windows (s : List Char) (chunk_size : Nat) (hk : 0 < chunk_size) :
    (chunk_text s chunk_size).length = (s.length + chunk_size - 1) / chunk_size ∧
    (∀ i : Nat, i < (chunk_text s chunk_size).length →
      (chunk_text s chunk_size).get? i =
        some (pyStrip ((s.drop (i * chunk_size)).take chunk_size))) ∧
    chunk_text [] chunk_size = [] :=
  ⟨chunk_text_length chunk_size hk s,
   fun i hi => chunk_text_getq chunk_size hk s i hi,
   chunk_text_nil chunk_size⟩

/-- C2 witness: the theorem applied to the 9-character string `"ab cd efg"`
with window size 4, evaluated at chunk index 2. -/
theorem C2_chunk_text_witness :
    (chunk_text lit9 4).length = (lit9.length + 4 - 1) / 4 ∧
    (chunk_text lit9 4).get? 2 = some (pyStrip ((lit9.drop (2 * 4)).take 4)) := by
  refine ⟨(C2_chunk_text_fixed_windows lit9 4 (by norm_num)).1, ?_⟩
  exact (C2_chunk_text_fixed_windows lit9 4 (by norm_num)).2.1 2 (by decide)

/-- C3: a submitted message whose stripped, lowercased text starts with
`"please add"` takes the knowledge-base path: the user turn is appended, the
remainder after the first 10 characters of the stripped message (itself
stripped) is embedded and upserted as a single snippet with metadata
`doc_id = "manual_add"` and `original_text =` the snippet, the assistant
confirmation turn is appended, the text box is cleared, and the recorded
calls contain no chat-completion call (hypotheses: the embed and upsert
succeed, as the claim's flow presumes). -/
theorem C3_please_add_flow (env : Env) (msg : List Char) (hist : List Turn) (emb : List Int)
    (hadd : pleaseAdd.isPrefixOf (pyLower (pyStrip msg)) = true)
    (hemb : env.embedResult (pyStrip ((pyStrip msg).drop 10)) = Except.ok emb)
    (hup : env.upsertResult
      ⟨env.uuid 0, emb, pyStrip ((pyStrip msg).drop 10), manualAdd⟩ = Except.ok ()) :
    handle_user_input env msg hist =
      ⟨hist ++ [Turn.mk roleUser (pyStrip msg),
        Turn.mk roleAssistant (addedMsg ++ pyStrip ((pyStrip msg).drop 10))],
       [],
       [ApiCall.embedCall (pyStrip ((pyStrip msg).drop 10)),
        ApiCall.upsertCall ⟨env.uuid 0, emb, pyStrip ((pyStrip msg).drop 10), manualAdd⟩],
       none⟩ := by
  have hne := pleaseAdd_nonempty_strip msg hadd
  simp only [handle_user_input, hne, Bool.false_eq_true, if_false, hadd, if_true,
    add_text_to_pinecone, embed_and_upsert, embed_and_upsert_go, hemb, hup]
  simp

/-- C3 witness: the concrete message `"Please add vpn is off"` against the
all-succeeding environment `envOk`. -/
theorem C3_please_add_witness :
    handle_user_input envOk msgAdd [] =
      ⟨[Turn.mk roleUser (pyStrip msgAdd),
        Turn.mk roleAssistant (addedMsg ++ pyStrip ((pyStrip msgAdd).drop 10))],
       [],
       [ApiCall.embedCall (pyStrip ((pyStrip msgAdd).drop 10)),
        ApiCall.upsertCall ⟨envOk.uuid 0, [1], pyStrip ((pyStrip msgAdd).drop 10), manualAdd⟩],
       none⟩ :=
  C3_please_add_flow envOk msgAdd [] [1] (by decide) rfl rfl

/-- C4: a submitted non-empty message that does not start (after stripping
and lowercasing) with `"please add"` takes the query path: the stripped
message is embedded, the top-3 nearest vectors are fetched, the matches'
stored `original_text` values are joined with newlines into the system
prompt, and the chat model is called with that system prompt first, followed
by the entire chat history in order, ending with the new user turn
(hypotheses: the three hosted calls succeed). -/
theorem C4_query_flow (env : Env) (msg : List Char) (hist : List Turn)
    (emb : List Int) (ms : List PCMatch) (ans : List Char)
    (hne : pyStrip msg ≠ [])
    (hnadd : pleaseAdd.isPrefixOf (pyLower (pyStrip msg)) = false)
    (hemb : env.embedResult (pyStrip msg) = Except.ok emb)
    (hq : env.queryResult emb 3 = Except.ok ms)
    (hchat : env.chatResult (conversationOf hist (pyStrip msg) ms) = Except.ok ans) :
    handle_user_input env msg hist =
      ⟨hist ++ [Turn.mk roleUser (pyStrip msg), Turn.mk roleAssistant (pyStrip ans)],
       [],
       [ApiCall.embedCall (pyStrip msg), ApiCall.queryCall emb 3,
        ApiCall.chatCall (conversationOf hist (pyStrip msg) ms)],
       none⟩ := by
  have hne' := isEmpty_false_of_ne_nil _ hne
  simp only [conversationOf, systemPromptOf, retrievedOf] at hchat
  simp only [handle_user_input, hne', Bool.false_eq_true, if_false, hnadd,
    query_pinecone, hemb, hq, hchat]
  simp [conversationOf, systemPromptOf, retrievedOf]

/-- C4 witness: the concrete message `"hello"` against the all-succeeding
environment `envOk`, which returns one stored snippet. -/
theorem C4_query_witness :
    handle_user_input envOk helloLit [] =
      ⟨[Turn.mk roleUser (pyStrip helloLit), Turn.mk roleAssistant (pyStrip chatAnswer)],
       [],
       [ApiCall.embedCall (pyStrip helloLit), ApiCall.queryCall [1] 3,
        ApiCall.chatCall (conversationOf [] (pyStrip helloLit) [⟨some kbSnippet⟩])],
       none⟩ :=
  C4_query_flow envOk helloLit [] [1] [⟨some kbSnippet⟩] chatAnswer
    (by decide) (by decide) rfl rfl rfl

/-- C8: a chat input that strips to the empty string leaves the handler a
no-op on observable state: the chat history is unchanged (and the text box
keeps its value), no hosted call of any kind is attempted, and nothing is
raised. -/
theorem C8_empty_input_noop (env : Env) (msg : List Char) (hist : List Turn)
    (h : pyStrip msg = []) :
    handle_user_input env msg hist = ⟨hist, msg, [], none⟩ := by
  simp [handle_user_input, h]

/-- C8 witness: the whitespace-only input `"   "`. -/
theorem C8_empty_input_witness :
    handle_user_input envOk wsLit [] = ⟨[], wsLit, [], none⟩ :=
  C8_empty_input_noop envOk wsLit [] (by decide)

/-- C9: `handle_user_input` is append-only on the chat history — the prior
turns remain as a prefix, in order — and every appended turn has role
exactly `"user"` or `"assistant"` (its content is a string by the type of
`Turn`).  This holds on every path, including the paths on which a hosted
call raises. -/
theorem C9_history_append_only (env : Env) (msg : List Char) (hist : List Turn) :
    ∃ appended : List Turn,
      (handle_user_input env msg hist).chat_history = hist ++ appended ∧
      ∀ t ∈ appended, t.role = roleUser ∨ t.role = roleAssistant := by
  unfold handle_user_input
  by_cases h1 : (pyStrip msg).isEmpty = true
  · refine ⟨[], by simp [h1], by simp⟩
  · rw [Bool.not_eq_true] at h1
    simp only [h1, Bool.false_eq_true, if_false]
    by_cases h2 : pleaseAdd.isPrefixOf (pyLower (pyStrip msg)) = true
    · simp only [h2, if_true]
      rcases hres : add_text_to_pinecone env (pyStrip ((pyStrip msg).drop 10))
        with ⟨calls, _ | e⟩
      · simp only [hres]
        refine ⟨[Turn.mk roleUser (pyStrip msg),
          Turn.mk roleAssistant (addedMsg ++ pyStrip ((pyStrip msg).drop 10))], by simp, ?_⟩
        intro t ht
        simp only [List.mem_cons, List.not_mem_nil, or_false] at ht
        rcases ht with rfl | rfl
        · exact Or.inl rfl
        · exact Or.inr rfl
      · simp only [hres]
        refine ⟨[Turn.mk roleUser (pyStrip msg)], by simp, ?_⟩
        intro t ht
        simp only [List.mem_cons, List.not_mem_nil, or_false] at ht
        subst ht
        exact Or.inl rfl
    · rw [Bool.not_eq_true] at h2
      simp only [h2, Bool.false_eq_true, if_false]
      rcases hq : query_pinecone env (pyStrip msg) 3 with ⟨calls, e | retrieved⟩
      · simp only [hq]
        refine ⟨[Turn.mk roleUser (pyStrip msg)], by simp, ?_⟩
        intro t ht
        simp only [List.mem_cons, List.not_mem_nil, or_false] at ht
        subst ht
        exact Or.inl rfl
      · simp only [hq]
        cases hchat : env.chatResult (Turn.mk roleSystem
            (sysPromptA ++ List.intercalate newlineStr retrieved ++ sysPromptB) ::
            (hist ++ [Turn.mk roleUser (pyStrip msg)])) with
        | error e =>
          simp only [hchat]
          refine ⟨[Turn.mk roleUser (pyStrip msg),
            Turn.mk roleAssistant (openaiErr ++ e)], by simp, ?_⟩
          intro t ht
          simp only [List.mem_cons, List.not_mem_nil, or_false] at ht
          rcases ht with rfl | rfl
          · exact Or.inl rfl
          · exact Or.inr rfl
        | ok answer =>
          simp only [hchat]
          refine ⟨[Turn.mk roleUser (pyStrip msg),
            Turn.mk roleAssistant (pyStrip answer)], by simp, ?_⟩
          intro t ht
          simp only [List.mem_cons, List.not_mem_nil, or_false] at ht
          rcases ht with rfl | rfl
          · exact Or.inl rfl
          · exact Or.inr rfl

/-- C5 counterexample: not every hosted-API error is caught at its call
site.  In the concrete environment `envEmbedFail` whose embedding call
raises `"boom"`, submitting `"hello"` makes the exception escape
`handle_user_input` uncaught (`raised = some "boom"`): the user turn was
already appended, no assistant turn surfaces the error inline, and the text
box is not cleared.  Only the chat-completion call sits inside a
`try`/`except`. -/
theorem C5_uncaught_counterexample :
    (handle_user_input envEmbedFail helloLit []).raised = some boomLit ∧
    (handle_user_input envEmbedFail helloLit []).chat_history =
      [Turn.mk roleUser helloLit] := by
  constructor
  · decide
  · decide

/-- C5 (amended): only the chat-completion call is wrapped in
`try`/`except`; every other hosted call's error escapes `handle_user_input`
uncaught.  The four parts cover every hosted call the handler makes:
(1) a chat-completion error is caught and surfaced as an inline assistant
turn `"OpenAI error: " + e`, with nothing escaping; (2) an embedding error
on the query path propagates uncaught; (3) a vector-query error propagates
uncaught; (4) an upsert error (reached on the "please add" path, after the
snippet's embedding succeeded) propagates uncaught.  In each uncaught case
the user turn already appended persists and no inline message is shown. -/
theorem C5_error_handling_amended (env : Env) (msg : List Char) (hist : List Turn) :
    (∀ emb ms e, pyStrip msg ≠ [] →
      pleaseAdd.isPrefixOf (pyLower (pyStrip msg)) = false →
      env.embedResult (pyStrip msg) = Except.ok emb →
      env.queryResult emb 3 = Except.ok ms →
      env.chatResult (conversationOf hist (pyStrip msg) ms) = Except.error e →
      handle_user_input env msg hist =
        ⟨hist ++ [Turn.mk roleUser (pyStrip msg),
          Turn.mk roleAssistant (openaiErr ++ e)], [],
         [ApiCall.embedCall (pyStrip msg), ApiCall.queryCall emb 3,
          ApiCall.chatCall (conversationOf hist (pyStrip msg) ms)], none⟩) ∧
    (∀ e, pyStrip msg ≠ [] →
      pleaseAdd.isPrefixOf (pyLower (pyStrip msg)) = false →
      env.embedResult (pyStrip msg) = Except.error e →
      handle_user_input env msg hist =
        ⟨hist ++ [Turn.mk roleUser (pyStrip msg)], msg,
         [ApiCall.embedCall (pyStrip msg)], some e⟩) ∧
    (∀ emb e, pyStrip msg ≠ [] →
      pleaseAdd.isPrefixOf (pyLower (pyStrip msg)) = false →
      env.embedResult (pyStrip msg) = Except.ok emb →
      env.queryResult emb 3 = Except.error e →
      handle_user_input env msg hist =
        ⟨hist ++ [Turn.mk roleUser (pyStrip msg)], msg,
         [ApiCall.embedCall (pyStrip msg), ApiCall.queryCall emb 3], some e⟩) ∧
    (∀ emb e, pleaseAdd.isPrefixOf (pyLower (pyStrip msg)) = true →
      env.embedResult (pyStrip ((pyStrip msg).drop 10)) = Except.ok emb →
      env.upsertResult
        ⟨env.uuid 0, emb, pyStrip ((pyStrip msg).drop 10), manualAdd⟩ = Except.error e →
      handle_user_input env msg hist =
        ⟨hist ++ [Turn.mk roleUser (pyStrip msg)], msg,
         [ApiCall.embedCall (pyStrip ((pyStrip msg).drop 10)),
          ApiCall.upsertCall ⟨env.uuid 0, emb, pyStrip ((pyStrip msg).drop 10), manualAdd⟩],
         some e⟩) := by
  refine ⟨?_, ?_, ?_, ?_⟩
  · intro emb ms e hne hnadd hemb hq hchat
    have hne' := isEmpty_false_of_ne_nil _ hne
    simp only [conversationOf, systemPromptOf, retrievedOf] at hchat
    simp only [handle_user_input, hne', Bool.false_eq_true, if_false, hnadd,
      query_pinecone, hemb, hq, hchat]
    simp [conversationOf, systemPromptOf, retrievedOf]
  · intro e hne hnadd hemb
    have hne' := isEmpty_false_of_ne_nil _ hne
    simp only [handle_user_input, hne', Bool.false_eq_true, if_false, hnadd,
      query_pinecone, hemb]
  · intro emb e hne hnadd hemb hq
    have hne' := isEmpty_false_of_ne_nil _ hne
    simp only [handle_user_input, hne', Bool.false_eq_true, if_false, hnadd,
      query_pinecone, hemb, hq]
  · intro emb e hadd hemb hup
    have hne' := pleaseAdd_nonempty_strip msg hadd
    simp only [handle_user_input, hne', Bool.false_eq_true, if_false, hadd, if_true,
      add_text_to_pinecone, embed_and_upsert, embed_and_upsert_go, hemb, hup]

/-- C5 witness: all four parts of the amended theorem at concrete inputs —
the chat-completion failure surfaced inline in `envChatFail`, and the
embedding, vector-query and vector-upsert failures propagating uncaught in
`envEmbedFail`, `envQueryFail` and `envUpsertFail` respectively. -/
theorem C5_error_handling_witness :
    handle_user_input envChatFail helloLit [] =
      ⟨[Turn.mk roleUser (pyStrip helloLit),
        Turn.mk roleAssistant (openaiErr ++ boomLit)], [],
       [ApiCall.embedCall (pyStrip helloLit), ApiCall.queryCall [1] 3,
        ApiCall.chatCall (conversationOf [] (pyStrip helloLit) [⟨some kbSnippet⟩])],
       none⟩ ∧
    handle_user_input envEmbedFail helloLit [] =
      ⟨[Turn.mk roleUser (pyStrip helloLit)], helloLit,
       [ApiCall.embedCall (pyStrip helloLit)], some boomLit⟩ ∧
    handle_user_input envQueryFail helloLit [] =
      ⟨[Turn.mk roleUser (pyStrip helloLit)], helloLit,
       [ApiCall.embedCall (pyStrip helloLit), ApiCall.queryCall [1] 3], some boomLit⟩ ∧
    handle_user_input envUpsertFail msgAdd [] =
      ⟨[Turn.mk roleUser (pyStrip msgAdd)], msgAdd,
       [ApiCall.embedCall (pyStrip ((pyStrip msgAdd).drop 10)),
        ApiCall.upsertCall
          ⟨envUpsertFail.uuid 0, [1], pyStrip ((pyStrip msgAdd).drop 10), manualAdd⟩],
       some boomLit⟩ := by
  refine ⟨?_, ?_, ?_, ?_⟩
  · exact (C5_error_handling_amended envChatFail helloLit []).1
      [1] [⟨some kbSnippet⟩] boomLit (by decide) (by decide) rfl rfl rfl
  · exact (C5_error_handling_amended envEmbedFail helloLit []).2.1
      boomLit (by decide) (by decide) rfl
  · exact (C5_error_handling_amended envQueryFail helloLit []).2.2.1
      [1] boomLit (by decide) (by decide) rfl rfl
  · exact (C5_error_handling_amended envUpsertFail msgAdd []).2.2.2
      [1] boomLit (by decide) rfl rfl

/-- C6: the chat interface is gated by the password compare.  On every
rerun, `main_app` is reached only when the `authenticated` flag is already
true; from an unauthenticated session the gate sets the flag exactly when
the Submit button was pressed with a password that strips to the configured
secret; and any other submission leaves the session unchanged and only shows
the error. -/
theorem C6_password_gate (app_password : List Char) (submitted : Bool) (raw : RawSession) :
    ((run_app app_password submitted raw).2 = Page.main →
      (init_session raw).authenticated = true) ∧
    ((init_session raw).authenticated = false →
      ((password_gate app_password submitted (init_session raw)).1.authenticated = true ↔
        submitted = true ∧ pyStrip (init_session raw).input_password = app_password)) ∧
    (submitted = true → pyStrip (init_session raw).input_password ≠ app_password →
      (password_gate app_password submitted (init_session raw)).1 = init_session raw ∧
      (password_gate app_password submitted (init_session raw)).2 =
        GateOutcome.errorShown) := by
  refine ⟨?_, ?_, ?_⟩
  · intro h
    unfold run_app at h
    by_cases ha : (init_session raw).authenticated
    · exact ha
    · simp [ha] at h
  · intro ha
    unfold password_gate
    cases submitted with
    | false => simp [ha]
    | true =>
      by_cases hp : pyStrip (init_session raw).input_password = app_password
      · simp [hp]
      · simp [hp, ha]
  · intro hs hp
    subst hs
    unfold password_gate
    simp [hp]

/-- C6 witness: with secret `"s3cret"`, submitting `" s3cret "` (strips to
the secret) authenticates, and submitting `"wrong"` leaves the session
unchanged with only the error shown. -/
theorem C6_password_gate_witness :
    (password_gate pwLit true (init_session raw0)).1.authenticated = true ∧
    (password_gate pwLit true (init_session raw1)).1 = init_session raw1 ∧
    (password_gate pwLit true (init_session raw1)).2 = GateOutcome.errorShown := by
  refine ⟨?_, ?_, ?_⟩
  · exact ((C6_password_gate pwLit true raw0).2.1 (by decide)).mpr ⟨rfl, by decide⟩
  · exact ((C6_password_gate pwLit true raw1).2.2 rfl (by decide)).1
  · exact ((C6_password_gate pwLit true raw1).2.2 rfl (by decide)).2

/-- C7: an identity whose organizational domain claim differs from the
configured allowed domain is rejected by the domain-restricted gate
regardless of token validity (the gate itself is modelled from the spec,
see `domain_gate`). -/
theorem C7_domain_restriction (allowed_domain : List Char) (ident : Identity)
    (h : ident.domain ≠ allowed_domain) :
    domain_gate allowed_domain ident = false := by
  unfold domain_gate
  simp [h]

/-- C7 witness: a valid token with domain `"intruder.com"` is rejected when
the allowed domain is `"acme.com"`. -/
theorem C7_domain_restriction_witness :
    domain_gate allowedLit ⟨true, evilLit⟩ = false :=
  C7_domain_restriction allowedLit ⟨true, evilLit⟩ (by decide)

/-- C10: an upload whose lowercased final extension is neither `"pdf"` nor
`"txt"` makes `parse_file` return the empty list, upon which the processing
flow shows the unsupported-type error and attempts no embedding or upsert
call; and for a `"txt"` extension `parse_file` returns normally on arbitrary
bytes — the decode ignores invalid UTF-8 — yielding the 1,500-wide chunks of
the decoded text. -/
theorem C10_parse_file_guard (env : Env) (f : UploadedFile) (doc_name : List Char) :
    (fileExt f.name ≠ pdfLit → fileExt f.name ≠ txtLit →
      parse_file env f = Except.ok [] ∧
      process_file env f doc_name = ([], FileOutcome.unsupported)) ∧
    (fileExt f.name = txtLit →
      parse_file env f = Except.ok (chunk_text (utf8DecodeIgnore f.content) 1500)) := by
  constructor
  · intro h1 h2
    have hp : parse_file env f = Except.ok [] := by
      simp only [parse_file]
      rw [if_neg h1, if_neg h2]
    refine ⟨hp, ?_⟩
    simp only [process_file, hp]
    simp
  · intro h2
    simp only [parse_file]
    rw [h2]
    rw [if_neg (show ¬ txtLit = pdfLit by decide), if_pos rfl]

/-- C10 witness: the `.pptx` upload is rejected with no calls, and the
`.txt` upload whose first byte `0xFF` is invalid UTF-8 still parses,
decoding to `"hi"`. -/
theorem C10_parse_file_witness :
    (parse_file envOk filePptx = Except.ok [] ∧
      process_file envOk filePptx [] = ([], FileOutcome.unsupported)) ∧
    parse_file envOk fileTxt =
      Except.ok (chunk_text (utf8DecodeIgnore fileTxt.content) 1500) := by
  constructor
  · exact (C10_parse_file_guard envOk filePptx []).1 (by decide) (by decide)
  · exact (C10_parse_file_guard envOk fileTxt []).2 (by decide)
